import Mathlib

/-!
Shallow embedding of the collaborative drawing server
(src/server/rooms.js, src/server/drawing-state.js, the socket handlers of
src/server/server.js) and of the path-simplification utility
(src/src/utils/canvasOperations.js). JS Maps are modelled as
insertion-ordered association lists; the module-level mutable globals
(the room table, the color index, the operation id counter) are gathered
into an explicit ServerState record that every function threads.
-/

namespace Flam

/-- A drawing point; coordinates are modelled as rationals. -/
structure Point where
  x : ℚ
  y : ℚ
deriving DecidableEq

/-- The operationData argument of addOperation (points, color, width, tool). -/
structure OpData where
  points : List Point
  color : String
  width : ℚ
  tool : String
deriving DecidableEq

/-- A committed drawing operation, as built by addOperation in
drawing-state.js. The JS field named type (always the string draw) is
called kind here. -/
structure Operation where
  id : Nat
  userId : String
  timestamp : Nat
  kind : String
  points : List Point
  color : String
  width : ℚ
  tool : String
deriving DecidableEq

/-- A participant record, as built by addUserToRoom in rooms.js. -/
structure User where
  userId : String
  username : String
  color : String
  joinedAt : Nat
deriving DecidableEq

/-- A cursor record, as stored by updateCursor in rooms.js. -/
structure Cursor where
  x : ℚ
  y : ℚ
  lastUpdate : Nat
deriving DecidableEq

/-! ### JS Map as an insertion-ordered association list -/

/-- Map.get: the value at the first matching key, if any. -/
def mapGet {α : Type} : List (String × α) → String → Option α
  | [], _ => none
  | (a, b) :: t, k => if a = k then some b else mapGet t k

/-- Map.has. -/
def mapHas {α : Type} (m : List (String × α)) (k : String) : Bool :=
  (mapGet m k).isSome

/-- Map.delete: remove the entry with the given key. -/
def mapDel {α : Type} : List (String × α) → String → List (String × α)
  | [], _ => []
  | (a, b) :: t, k => if a = k then mapDel t k else (a, b) :: mapDel t k

/-- Value replacement at an existing key, keeping its position. -/
def mapReplace {α : Type} : List (String × α) → String → α → List (String × α)
  | [], _, _ => []
  | (a, b) :: t, k, v =>
      if a = k then (k, v) :: mapReplace t k v else (a, b) :: mapReplace t k v

/-- Map.set: overwrite in place if the key exists, else append at the end
(JS Maps preserve insertion order). -/
def mapSet {α : Type} (m : List (String × α)) (k : String) (v : α) :
    List (String × α) :=
  if mapHas m k then mapReplace m k v else m ++ [(k, v)]

theorem mapGet_replace_self {α : Type} (m : List (String × α)) (k : String) (v : α)
    (h : mapHas m k = true) : mapGet (mapReplace m k v) k = some v := by
  induction m with
  | nil => simp [mapHas, mapGet] at h
  | cons p t ih =>
    obtain ⟨a, b⟩ := p
    by_cases hk : a = k
    · simp [mapReplace, mapGet, hk]
    · simp [mapReplace, mapGet, hk]
      exact ih (by simpa [mapHas, mapGet, hk] using h)

theorem mapGet_append {α : Type} (m₁ m₂ : List (String × α)) (k : String) :
    mapGet (m₁ ++ m₂) k = (mapGet m₁ k).or (mapGet m₂ k) := by
  induction m₁ with
  | nil => simp [mapGet]
  | cons p t ih =>
    obtain ⟨a, b⟩ := p
    by_cases hk : a = k
    · simp [mapGet, hk]
    · simp [mapGet, hk, ih]

theorem mapGet_set_self {α : Type} (m : List (String × α)) (k : String) (v : α) :
    mapGet (mapSet m k v) k = some v := by
  unfold mapSet
  by_cases h : mapHas m k
  · simp [h, mapGet_replace_self m k v h]
  · have hn : mapGet m k = none := by
      simpa [mapHas, Option.not_isSome_iff_eq_none] using h
    simp [h, mapGet_append, hn, mapGet]

theorem mapGet_replace_ne {α : Type} (m : List (String × α)) (k k' : String) (v : α)
    (h : k' ≠ k) : mapGet (mapReplace m k v) k' = mapGet m k' := by
  induction m with
  | nil => simp [mapReplace]
  | cons p t ih =>
    obtain ⟨a, b⟩ := p
    by_cases hk : a = k
    · simp [mapReplace, mapGet, hk, Ne.symm h]
      exact ih
    · simp [mapReplace, mapGet, hk, ih]

theorem mapGet_set_ne {α : Type} (m : List (String × α)) (k k' : String) (v : α)
    (h : k' ≠ k) : mapGet (mapSet m k v) k' = mapGet m k' := by
  unfold mapSet
  by_cases hh : mapHas m k
  · simp [hh, mapGet_replace_ne m k k' v h]
  · simp [hh, mapGet_append, mapGet, Ne.symm h]

theorem mapGet_del_self {α : Type} (m : List (String × α)) (k : String) :
    mapGet (mapDel m k) k = none := by
  induction m with
  | nil => simp [mapDel, mapGet]
  | cons p t ih =>
    obtain ⟨a, b⟩ := p
    by_cases hk : a = k
    · simp [mapDel, hk, ih]
    · simp [mapDel, mapGet, hk, ih]

theorem mapGet_del_ne {α : Type} (m : List (String × α)) (k k' : String)
    (h : k' ≠ k) : mapGet (mapDel m k) k' = mapGet m k' := by
  induction m with
  | nil => simp [mapDel]
  | cons p t ih =>
    obtain ⟨a, b⟩ := p
    by_cases hk : a = k
    · simp [mapDel, mapGet, hk, Ne.symm h, ih]
    · simp [mapDel, mapGet, hk, ih]

theorem mapSet_of_get_none {α : Type} (m : List (String × α)) (k : String) (v : α)
    (h : mapGet m k = none) : mapSet m k v = m ++ [(k, v)] := by
  simp [mapSet, mapHas, h]

/-! ### Server state (the module-level globals of rooms.js and drawing-state.js) -/

/-- A room, as created by getRoom in rooms.js:
users Map, operations array, cursors Map. -/
structure Room where
  users : List (String × User)
  operations : List Operation
  cursors : List (String × Cursor)
deriving DecidableEq

/-- The mutable module-level state: the rooms Map and colorIndex of
rooms.js, and the operationIdCounter of drawing-state.js. -/
structure ServerState where
  rooms : List (String × Room)
  colorIndex : Nat
  opCounter : Nat
deriving DecidableEq

/-- The fresh room object getRoom creates. -/
def emptyRoom : Room := ⟨[], [], []⟩

/-- The state at process start: no rooms, both counters at zero. -/
def initialState : ServerState := ⟨[], 0, 0⟩

/-- The USER_COLORS palette of rooms.js. -/
def USER_COLORS : List String :=
  ["#FF6B6B", "#4ECDC4", "#45B7D1", "#FFA07A", "#98D8C8",
   "#F7DC6F", "#BB8FCE", "#85C1E2", "#F8B739", "#52B788",
   "#FF8FA3", "#6C5CE7", "#00B894", "#FDCB6E", "#E17055"]

/-! ### rooms.js -/

/-- rooms.js getRoom: return the room, creating (and registering) a fresh
one when the id is absent. -/
def getRoom (s : ServerState) (roomId : String) : Room × ServerState :=
  match mapGet s.rooms roomId with
  | some room => (room, s)
  | none => (emptyRoom, { s with rooms := mapSet s.rooms roomId emptyRoom })

/-- rooms.js addUserToRoom: get-or-create the room, assign the next
palette color, default a blank username to User(size+1), store the user.
Date.now() is passed in as the now argument. -/
def addUserToRoom (s : ServerState) (roomId socketId username : String)
    (now : Nat) : User × ServerState :=
  let rs := getRoom s roomId
  let room := rs.1
  let s₁ := rs.2
  let color := USER_COLORS.getD (s₁.colorIndex % USER_COLORS.length) ""
  let name :=
    if username = "" then "User" ++ toString (room.users.length + 1) else username
  let user : User := ⟨socketId, name, color, now⟩
  let room' := { room with users := mapSet room.users socketId user }
  (user,
   { s₁ with
       colorIndex := s₁.colorIndex + 1,
       rooms := mapSet s₁.rooms roomId room' })

/-- rooms.js removeUserFromRoom: null when the room is absent; otherwise
delete the user and cursor entries and, when no users remain, delete the
room itself from the registry. -/
def removeUserFromRoom (s : ServerState) (roomId socketId : String) :
    Option User × ServerState :=
  match mapGet s.rooms roomId with
  | none => (none, s)
  | some room =>
    let user := mapGet room.users socketId
    let users' := mapDel room.users socketId
    let cursors' := mapDel room.cursors socketId
    if users'.length = 0 then
      (user, { s with rooms := mapDel s.rooms roomId })
    else
      let room' := { room with users := users', cursors := cursors' }
      (user, { s with rooms := mapSet s.rooms roomId room' })

/-- rooms.js getRoomUsers: the users in insertion order, [] when the room
is absent (this one reads the registry without creating). -/
def getRoomUsers (s : ServerState) (roomId : String) : List User :=
  match mapGet s.rooms roomId with
  | none => []
  | some room => room.users.map (fun p => p.2)

/-! ### drawing-state.js -/

/-- drawing-state.js addOperation: get-or-create the room, build the
operation with id (plus-plus operationIdCounter) - a single process-wide
counter, not a per-room one - and push it at the end of the room history. -/
def addOperation (s : ServerState) (roomId userId : String) (data : OpData)
    (now : Nat) : Operation × ServerState :=
  let rs := getRoom s roomId
  let room := rs.1
  let s₁ := rs.2
  let op : Operation :=
    ⟨s₁.opCounter + 1, userId, now, "draw",
     data.points, data.color, data.width, data.tool⟩
  let room' := { room with operations := room.operations ++ [op] }
  (op,
   { s₁ with
       opCounter := s₁.opCounter + 1,
       rooms := mapSet s₁.rooms roomId room' })

/-- drawing-state.js undoOperation: get-or-create the room; null when its
history is empty, else pop and return the last operation. -/
def undoOperation (s : ServerState) (roomId : String) :
    Option Operation × ServerState :=
  let rs := getRoom s roomId
  let room := rs.1
  let s₁ := rs.2
  if room.operations.isEmpty then (none, s₁)
  else
    let room' := { room with operations := room.operations.dropLast }
    (room.operations.getLast?,
     { s₁ with rooms := mapSet s₁.rooms roomId room' })

/-- drawing-state.js getOperations: get-or-create the room and return its
history (the creation side effect of getRoom is kept). -/
def getOperations (s : ServerState) (roomId : String) :
    List Operation × ServerState :=
  let rs := getRoom s roomId
  (rs.1.operations, rs.2)

/-! ### server.js socket handlers -/

/-- The full_sync payload the join_room handler emits. -/
structure FullSync where
  operations : List Operation
  users : List User
deriving DecidableEq

/-- server.js join_room handler: add the user first, then snapshot
operations and users and reply with full_sync. -/
def joinRoom (s : ServerState) (roomId socketId username : String)
    (now : Nat) : FullSync × ServerState :=
  let us := addUserToRoom s roomId socketId username now
  let os := getOperations us.2 roomId
  let users := getRoomUsers os.2 roomId
  (⟨os.1, users⟩, os.2)

/-- server.js undo handler: run undoOperation; broadcast the removed id
(operation_removed) only when a removal occurred. The returned Option Nat
is the broadcast payload, none meaning no broadcast. -/
def undoHandler (s : ServerState) (roomId : String) :
    Option Nat × ServerState :=
  let rs := undoOperation s roomId
  match rs.1 with
  | some op => (some op.id, rs.2)
  | none => (none, rs.2)

/-- server.js disconnect handler, room side: evict the user via
removeUserFromRoom (then broadcast user_left; no log mutation). -/
def disconnectHandler (s : ServerState) (roomId socketId : String) :
    ServerState :=
  (removeUserFromRoom s roomId socketId).2

/-! ### Runs of server events -/

/-- The inbound events that mutate server state: join_room, disconnect,
draw_end (a commit) and undo, each already resolved to the socket's
current room. -/
inductive Event where
  | join (roomId socketId username : String) (now : Nat)
  | leave (roomId socketId : String)
  | commit (roomId socketId : String) (data : OpData) (now : Nat)
  | undo (roomId : String)

/-- One event step; a commit emits the operation addOperation returned,
tagged with the room it went into. -/
def stepEvent (s : ServerState) : Event → List (String × Operation) × ServerState
  | Event.join r sid name now => ([], (addUserToRoom s r sid name now).2)
  | Event.leave r sid => ([], (removeUserFromRoom s r sid).2)
  | Event.commit r sid d now =>
      let os := addOperation s r sid d now
      ([(r, os.1)], os.2)
  | Event.undo r => ([], (undoOperation s r).2)

/-- Run a list of events, collecting all committed operations in commit
order, each tagged with its room. -/
def runEvents (s : ServerState) :
    List Event → List (String × Operation) × ServerState
  | [] => ([], s)
  | e :: es =>
      let p := stepEvent s e
      let q := runEvents p.2 es
      (p.1 ++ q.1, q.2)

/-- Number of commit events in a list. -/
def numCommits : List Event → Nat
  | [] => 0
  | Event.commit _ _ _ _ :: es => numCommits es + 1
  | Event.join _ _ _ _ :: es => numCommits es
  | Event.leave _ _ :: es => numCommits es
  | Event.undo _ :: es => numCommits es

theorem getRoom_opCounter (s : ServerState) (r : String) :
    (getRoom s r).2.opCounter = s.opCounter := by
  unfold getRoom
  cases h : mapGet s.rooms r <;> simp

theorem addUserToRoom_opCounter (s : ServerState) (r sid name : String)
    (now : Nat) : (addUserToRoom s r sid name now).2.opCounter = s.opCounter := by
  unfold addUserToRoom
  simp [getRoom_opCounter]

theorem removeUserFromRoom_opCounter (s : ServerState) (r sid : String) :
    (removeUserFromRoom s r sid).2.opCounter = s.opCounter := by
  unfold removeUserFromRoom
  cases h : mapGet s.rooms r with
  | none => simp
  | some room => by_cases hl : (mapDel room.users sid).length = 0 <;> simp [hl]

theorem undoOperation_opCounter (s : ServerState) (r : String) :
    (undoOperation s r).2.opCounter = s.opCounter := by
  unfold undoOperation
  by_cases he : (getRoom s r).1.operations.isEmpty <;>
    simp [he, getRoom_opCounter]

theorem addOperation_opCounter (s : ServerState) (r uid : String) (d : OpData)
    (now : Nat) :
    (addOperation s r uid d now).2.opCounter = s.opCounter + 1 ∧
    (addOperation s r uid d now).1.id = s.opCounter + 1 := by
  unfold addOperation
  simp [getRoom_opCounter]

/-- The ids a run hands out are exactly the consecutive block that starts
right after the initial counter value, and the counter advances by one
per commit. -/
theorem runEvents_ids (evs : List Event) (s : ServerState) :
    (runEvents s evs).1.map (fun p => p.2.id)
      = List.range' (s.opCounter + 1) (numCommits evs) ∧
    (runEvents s evs).2.opCounter = s.opCounter + numCommits evs := by
  induction evs generalizing s with
  | nil => simp [runEvents, numCommits]
  | cons e es ih =>
    cases e with
    | join r sid name now =>
      have h := ih (stepEvent s (Event.join r sid name now)).2
      simpa [runEvents, stepEvent, numCommits, addUserToRoom_opCounter] using h
    | leave r sid =>
      have h := ih (stepEvent s (Event.leave r sid)).2
      simpa [runEvents, stepEvent, numCommits, removeUserFromRoom_opCounter] using h
    | undo r =>
      have h := ih (stepEvent s (Event.undo r)).2
      simpa [runEvents, stepEvent, numCommits, undoOperation_opCounter] using h
    | commit r sid d now =>
      have h := ih (stepEvent s (Event.commit r sid d now)).2
      have hc := addOperation_opCounter s r sid d now
      rw [runEvents]
      constructor
      · simp only [stepEvent] at h
        rw [hc.1] at h
        simp [stepEvent, hc.2, numCommits, List.range'_succ, h.1]
      · simp only [stepEvent] at h ⊢
        rw [h.2, hc.1, numCommits]
        omega

theorem pairwise_lt_range_block (n a : Nat) :
    (List.range' a n).Pairwise (· < ·) := by
  induction n generalizing a with
  | zero => simp
  | succ n ih =>
    rw [List.range'_succ]
    refine List.Pairwise.cons ?_ (ih (a + 1))
    intro b hb
    have hm := List.mem_range'_1.mp hb
    omega

/-- Sequence of draw_end commits into one room: userId, operationData and
the Date.now() stamp of each. -/
def commitAll (s : ServerState) (roomId : String) :
    List (String × OpData × Nat) → List Operation × ServerState
  | [] => ([], s)
  | c :: cs =>
      let os := addOperation s roomId c.1 c.2.1 c.2.2
      let q := commitAll os.2 roomId cs
      (os.1 :: q.1, q.2)

theorem getOperations_addOperation (s : ServerState) (r uid : String)
    (d : OpData) (now : Nat) :
    (getOperations (addOperation s r uid d now).2 r).1
      = (getOperations s r).1 ++ [(addOperation s r uid d now).1] := by
  unfold getOperations addOperation getRoom
  cases h : mapGet s.rooms r with
  | some room => simp [h, mapGet_set_self]
  | none => simp [h, mapGet_set_self, emptyRoom]

theorem undoOperation_of_concat (s : ServerState) (r : String)
    (pre : List Operation) (o : Operation)
    (h : (getOperations s r).1 = pre ++ [o]) :
    (undoOperation s r).1 = some o ∧
    (getOperations (undoOperation s r).2 r).1 = pre := by
  unfold getOperations at h
  unfold undoOperation getOperations getRoom
  cases hm : mapGet s.rooms r with
  | none =>
    rw [getRoom] at h
    simp [hm, emptyRoom] at h
  | some room =>
    rw [getRoom] at h
    simp only [hm] at h
    have hne : room.operations.isEmpty = false := by
      simp [h, List.isEmpty_iff]
    simp [hm, hne, h, mapGet_set_self, List.getLast?_concat,
      List.dropLast_concat]

/-! ### canvasOperations.js path simplification -/

/-- canvasOperations.js perpendicularDistance, squared. The source takes
Math.sqrt of this value; only order comparisons of the result are ever
made, and squaring preserves order on nonnegatives, so the squared value
is kept to stay inside the rationals. -/
def perpendicularDistanceSq (point lineStart lineEnd : Point) : ℚ :=
  let dx := lineEnd.x - lineStart.x
  let dy := lineEnd.y - lineStart.y
  if dx = 0 ∧ dy = 0 then
    (point.x - lineStart.x) ^ 2 + (point.y - lineStart.y) ^ 2
  else
    let t := max 0 (min 1
      (((point.x - lineStart.x) * dx + (point.y - lineStart.y) * dy) /
        (dx * dx + dy * dy)))
    let projX := lineStart.x + t * dx
    let projY := lineStart.y + t * dy
    (point.x - projX) ^ 2 + (point.y - projY) ^ 2

/-- The scan loop of optimizePath: squared distance and index of the
interior point (indices 1 to length-2) farthest from the chord between
the endpoints, with the strict-greater update of the source, so the first
maximum wins; (0, 0) when there are no interior points. -/
def findFarthest (points : List Point) : ℚ × Nat :=
  let e := points.length - 1
  (List.range' 1 (e - 1)).foldl
    (fun acc i =>
      let d := perpendicularDistanceSq (points.getD i ⟨0, 0⟩)
        (points.getD 0 ⟨0, 0⟩) (points.getD e ⟨0, 0⟩)
      if acc.1 < d then (d, i) else acc)
    (0, 0)

/-- canvasOperations.js optimizePath (Douglas-Peucker). The recursion on
the two slices is bounded by fuel; the source recursion terminates
whenever the farthest index is interior (always the case for tolerance
at least 0), and fuel equal to the point count then suffices, since each
slice is strictly shorter. The tolerance test compares squares (tol times
tol against the squared distance), which agrees with the source for
tolerance at least 0. -/
def optimizePathF : Nat → List Point → ℚ → List Point
  | 0, points, _ => points
  | fuel + 1, points, tol =>
    if points.length ≤ 2 then points
    else
      let e := points.length - 1
      let fm := findFarthest points
      if tol * tol < fm.1 then
        let left := optimizePathF fuel (points.take (fm.2 + 1)) tol
        let right := optimizePathF fuel (points.drop fm.2) tol
        left.dropLast ++ right
      else
        [points.getD 0 ⟨0, 0⟩, points.getD e ⟨0, 0⟩]

/-- canvasOperations.js optimizePath at its public signature. -/
def optimizePath (points : List Point) (tol : ℚ) : List Point :=
  optimizePathF points.length points tol

theorem getRoom_of_some (s : ServerState) (r : String) (room : Room)
    (h : mapGet s.rooms r = some room) : getRoom s r = (room, s) := by
  simp [getRoom, h]

theorem getRoom_get (s : ServerState) (r : String) :
    mapGet (getRoom s r).2.rooms r = some (getRoom s r).1 := by
  unfold getRoom
  cases h : mapGet s.rooms r with
  | some room => simpa using h
  | none => simp [mapGet_set_self]

theorem addUserToRoom_rooms (s : ServerState) (r sid name : String) (now : Nat) :
    (addUserToRoom s r sid name now).2.rooms
      = mapSet (getRoom s r).2.rooms r
          { (getRoom s r).1 with
              users := mapSet (getRoom s r).1.users sid
                (addUserToRoom s r sid name now).1 } := by
  rfl

/-- What the join_room handler replies and stores: the payload snapshots
the room right after the joiner was added. -/
theorem joinRoom_spec (s : ServerState) (r sid name : String) (now : Nat) :
    (joinRoom s r sid name now).1.operations = (getRoom s r).1.operations ∧
    (joinRoom s r sid name now).1.users
      = (mapSet (getRoom s r).1.users sid
          (addUserToRoom s r sid name now).1).map (fun p => p.2) ∧
    mapGet (joinRoom s r sid name now).2.rooms r
      = some { (getRoom s r).1 with
          users := mapSet (getRoom s r).1.users sid
            (addUserToRoom s r sid name now).1 } := by
  have hA : mapGet (addUserToRoom s r sid name now).2.rooms r
      = some { (getRoom s r).1 with
          users := mapSet (getRoom s r).1.users sid
            (addUserToRoom s r sid name now).1 } := by
    rw [addUserToRoom_rooms, mapGet_set_self]
  have hG := getRoom_of_some _ _ _ hA
  unfold joinRoom getOperations getRoomUsers
  simp only [hG, hA]
  simp

/-! ## The claims -/

/-- C9: optimizePath with tolerance 2 applied to the points
(0,0), (1, 0.1), (2, -0.1), (10, 0) returns exactly the two endpoints
(0,0), (10,0): every interior point is within the tolerance of the chord,
so the whole segment collapses to its endpoints. -/
theorem C9_optimizePath_example :
    optimizePath [⟨0, 0⟩, ⟨1, 1/10⟩, ⟨2, -1/10⟩, ⟨10, 0⟩] 2
      = [⟨0, 0⟩, ⟨10, 0⟩] := by
  norm_num [optimizePath, optimizePathF, findFarthest, perpendicularDistanceSq,
    List.range', max_def, min_def, List.getD]

/-- C10: over any run of server events in one process, the ids assigned
by addOperation are strictly increasing in global commit order - the
counter is process-wide - so no two operations committed in one run ever
share an id, across rooms and across destruction and re-creation of a
room. -/
theorem C10_ids_globally_increasing (s : ServerState) (evs : List Event) :
    ((runEvents s evs).1.map (fun p => p.2.id)).Pairwise (· < ·) := by
  rw [(runEvents_ids evs s).1]
  exact pairwise_lt_range_block _ _

/-- A concrete draw_end payload for the counterexample runs. -/
def sampleData : OpData := ⟨[⟨0, 0⟩], "#000000", 2, "brush"⟩

/-- Run for the C1 counterexample: a participant joins room a, commits,
leaves (the room is destroyed), then a participant joins room a again and
commits into the recreated room. -/
def c1Events : List Event :=
  [Event.join "a" "s1" "alice" 0, Event.commit "a" "s1" sampleData 1,
   Event.leave "a" "s1",
   Event.join "a" "s2" "bob" 2, Event.commit "a" "s2" sampleData 3]

/-- C1 is false as stated: after room a is destroyed and recreated, the
first commit of the recreated room gets id 2, not 1 - the id counter is
process-wide and is never reset. -/
theorem C1_counterexample :
    ((runEvents initialState c1Events).1.map (fun p => p.2.id)) = [1, 2] ∧
    ((runEvents initialState c1Events).1.map (fun p => p.2.id)) ≠ [1, 1] := by
  constructor <;> decide

/-- C1 amended: the id addOperation assigns is the current value of the
single process-wide counter plus one, whatever the room; hence within
each room ids are strictly increasing and never reused, but a room's
first commit is not 1 in general and ids do not restart at 1 when a
destroyed room id is recreated. -/
theorem C1_amended_ids (s : ServerState) (roomId userId : String)
    (d : OpData) (now : Nat) (r : String) (evs : List Event) :
    (addOperation s roomId userId d now).1.id = s.opCounter + 1 ∧
    ((((runEvents s evs).1.filter (fun p => p.1 = r)).map
        (fun p => p.2.id)).Pairwise (· < ·)) := by
  refine ⟨(addOperation_opCounter s roomId userId d now).2, ?_⟩
  have hp : ((runEvents s evs).1.map (fun p => p.2.id)).Pairwise (· < ·) := by
    rw [(runEvents_ids evs s).1]
    exact pairwise_lt_range_block _ _
  have hs : (List.filter (fun p => decide (p.1 = r)) (runEvents s evs).1).Sublist
      (runEvents s evs).1 := List.filter_sublist _
  exact List.Pairwise.sublist (hs.map (fun p => p.2.id)) hp

/-- C2: the snapshot getOperations returns is exactly commit order: a
single commit appends exactly one operation at the tail of the room
history, and a whole sequence of commits appends exactly the operations
it returned, in commit order, reordering nothing. -/
theorem C2_snapshot_equals_commit_order (s : ServerState) (r uid : String)
    (d : OpData) (now : Nat) (cs : List (String × OpData × Nat)) :
    (getOperations (addOperation s r uid d now).2 r).1
        = (getOperations s r).1 ++ [(addOperation s r uid d now).1] ∧
    (getOperations (commitAll s r cs).2 r).1
        = (getOperations s r).1 ++ (commitAll s r cs).1 := by
  refine ⟨getOperations_addOperation s r uid d now, ?_⟩
  induction cs generalizing s with
  | nil => simp [commitAll]
  | cons c cs ih =>
    simp only [commitAll]
    rw [ih, getOperations_addOperation]
    simp

/-- C3: commit followed immediately by undo returns the just-committed
operation and leaves the room history exactly as before the commit; in
general, undo removes and returns the most recently committed operation
of the room. -/
theorem C3_undo_inverts_commit (s : ServerState) (r uid : String)
    (d : OpData) (now : Nat) :
    (undoOperation (addOperation s r uid d now).2 r).1
        = some (addOperation s r uid d now).1 ∧
    (getOperations (undoOperation (addOperation s r uid d now).2 r).2 r).1
        = (getOperations s r).1 ∧
    ∀ pre o, (getOperations s r).1 = pre ++ [o] →
      (undoOperation s r).1 = some o ∧
      (getOperations (undoOperation s r).2 r).1 = pre := by
  have h1 := getOperations_addOperation s r uid d now
  have h2 := undoOperation_of_concat (addOperation s r uid d now).2 r
      (getOperations s r).1 (addOperation s r uid d now).1 h1
  exact ⟨h2.1, h2.2, fun pre o h => undoOperation_of_concat s r pre o h⟩

/-- A state holding one committed operation in room r, and that
operation, for the C3 witness. -/
def oneOpState : ServerState := (addOperation initialState "r" "u" sampleData 5).2

/-- The single operation of oneOpState. -/
def oneOp : Operation := ⟨1, "u", 5, "draw", [⟨0, 0⟩], "#000000", 2, "brush"⟩

/-- Witness for C3 at a concrete one-operation room. -/
theorem C3_undo_inverts_commit_witness :
    (undoOperation oneOpState "r").1 = some oneOp ∧
    (getOperations (undoOperation oneOpState "r").2 "r").1 = [] :=
  (C3_undo_inverts_commit oneOpState "r" "u" sampleData 5).2.2 [] oneOp (by decide)

/-- C4 is false as stated: undoing in the never-created room ghost is not
a pure no-op on the registry - getRoom creates the room - so the registry
is left holding that room, empty and with zero participants. -/
theorem C4_counterexample :
    (undoOperation initialState "ghost").1 = none ∧
    mapGet ((undoOperation initialState "ghost").2).rooms "ghost"
      = some emptyRoom ∧
    getRoomUsers (undoOperation initialState "ghost").2 "ghost" = [] := by
  refine ⟨by decide, by decide, by decide⟩

/-- C4 amended: acting on a non-existent room (undo, reading operations)
still returns the empty/None result, but is not registry-neutral: the
get-or-create lookup appends an empty zero-participant room to the
registry, so a garbage-collected room is distinguishable from one that
never existed by inspecting the registry. -/
theorem C4_amended_get_or_create (s : ServerState) (roomId : String)
    (h : mapGet s.rooms roomId = none) :
    (undoOperation s roomId).1 = none ∧
    (undoOperation s roomId).2
        = { s with rooms := s.rooms ++ [(roomId, emptyRoom)] } ∧
    (getOperations s roomId).1 = [] ∧
    (getOperations s roomId).2
        = { s with rooms := s.rooms ++ [(roomId, emptyRoom)] } ∧
    getRoomUsers s roomId = [] := by
  unfold undoOperation getOperations getRoomUsers getRoom
  simp [h, emptyRoom, mapSet_of_get_none _ _ _ h]

/-- Witness for C4 amended at the initial state and room lobby. -/
theorem C4_amended_get_or_create_witness :
    (undoOperation initialState "lobby").1 = none ∧
    (undoOperation initialState "lobby").2
        = { initialState with rooms := [("lobby", emptyRoom)] } ∧
    (getOperations initialState "lobby").1 = [] ∧
    (getOperations initialState "lobby").2
        = { initialState with rooms := [("lobby", emptyRoom)] } ∧
    getRoomUsers initialState "lobby" = [] :=
  C4_amended_get_or_create initialState "lobby" rfl

/-- joinRoom into a state where the room id is absent: the full_sync
payload shows an empty history and exactly the joiner. -/
theorem joinRoom_fresh (s : ServerState) (roomId sid name : String) (now : Nat)
    (h : mapGet s.rooms roomId = none) :
    (joinRoom s roomId sid name now).1.operations = [] ∧
    (joinRoom s roomId sid name now).1.users
      = [(addUserToRoom s roomId sid name now).1] := by
  obtain ⟨hop, hus, _⟩ := joinRoom_spec s roomId sid name now
  have hg : (getRoom s roomId).1 = emptyRoom := by simp [getRoom, h]
  rw [hg] at hop hus
  refine ⟨by simpa [emptyRoom] using hop, ?_⟩
  rw [hus]
  simp [emptyRoom, mapSet, mapHas, mapGet]

/-- C5: when removing a participant brings a room's participant count to
zero, the room and all its state are discarded at once, and a subsequent
join under the same room id observes a fresh empty operation log and a
participant list holding only the new joiner. -/
theorem C5_teardown_then_fresh_rejoin (s : ServerState) (roomId sid : String)
    (u : User) (room : Room)
    (hroom : mapGet s.rooms roomId = some room)
    (husers : room.users = [(sid, u)])
    (sid₂ name : String) (now : Nat) :
    (removeUserFromRoom s roomId sid).1 = some u ∧
    mapGet ((removeUserFromRoom s roomId sid).2).rooms roomId = none ∧
    (joinRoom (removeUserFromRoom s roomId sid).2 roomId sid₂ name now).1.operations
      = [] ∧
    (joinRoom (removeUserFromRoom s roomId sid).2 roomId sid₂ name now).1.users
      = [(addUserToRoom (removeUserFromRoom s roomId sid).2 roomId sid₂ name now).1] := by
  have hrm : removeUserFromRoom s roomId sid
      = (some u, { s with rooms := mapDel s.rooms roomId }) := by
    unfold removeUserFromRoom
    simp [hroom, husers, mapDel, mapGet]
  have hdel : mapGet (mapDel s.rooms roomId) roomId = none := mapGet_del_self _ _
  rw [hrm]
  exact ⟨rfl, hdel, (joinRoom_fresh _ _ _ _ _ hdel).1, (joinRoom_fresh _ _ _ _ _ hdel).2⟩

/-- The first participant of the witness scenarios (first palette color,
joined at 0). -/
def userA : User := ⟨"a", "alice", "#FF6B6B", 0⟩

/-- A state where alice alone occupies room r. -/
def joinedState : ServerState := (joinRoom initialState "r" "a" "alice" 0).2

/-- Witness for C5: alice leaves room r, bob rejoins it fresh. -/
theorem C5_teardown_then_fresh_rejoin_witness :
    (removeUserFromRoom joinedState "r" "a").1 = some userA ∧
    mapGet ((removeUserFromRoom joinedState "r" "a").2).rooms "r" = none ∧
    (joinRoom (removeUserFromRoom joinedState "r" "a").2 "r" "b" "bob" 7).1.operations
      = [] ∧
    (joinRoom (removeUserFromRoom joinedState "r" "a").2 "r" "b" "bob" 7).1.users
      = [(addUserToRoom (removeUserFromRoom joinedState "r" "a").2 "r" "b" "bob" 7).1] :=
  C5_teardown_then_fresh_rejoin joinedState "r" "a" userA ⟨[("a", userA)], [], []⟩
    (by decide) (by decide) "b" "bob" 7

/-- C6 is false as stated: with nothing between the two joins, the two
full_sync payloads differ - the handler registers the joiner before
snapshotting, so the first joiner's participant list has one entry and
the second joiner's has two. -/
theorem C6_counterexample :
    (joinRoom initialState "r" "s1" "alice" 0).1
      ≠ (joinRoom (joinRoom initialState "r" "s1" "alice" 0).2 "r" "s2" "bob" 1).1 := by
  decide

/-- The users Map of a room, [] when the room is absent (reading helper
for stating C6). -/
def roomUsersMap (s : ServerState) (roomId : String) : List (String × User) :=
  match mapGet s.rooms roomId with
  | none => []
  | some room => room.users

/-- C6 amended: two joins to the same room with no intervening events
receive full_sync payloads with identical operation histories, but not
identical participant lists: the second payload's list is the first
payload's list extended with the second joiner. -/
theorem C6_amended_full_sync (s : ServerState)
    (roomId sidA sidB nameA nameB : String) (tA tB : Nat)
    (h : mapGet (roomUsersMap (joinRoom s roomId sidA nameA tA).2 roomId) sidB
      = none) :
    (joinRoom (joinRoom s roomId sidA nameA tA).2 roomId sidB nameB tB).1.operations
        = (joinRoom s roomId sidA nameA tA).1.operations ∧
    (joinRoom (joinRoom s roomId sidA nameA tA).2 roomId sidB nameB tB).1.users
        = (joinRoom s roomId sidA nameA tA).1.users
          ++ [(addUserToRoom (joinRoom s roomId sidA nameA tA).2 roomId sidB nameB tB).1] := by
  obtain ⟨hop1, hus1, hst1⟩ := joinRoom_spec s roomId sidA nameA tA
  obtain ⟨hop2, hus2, _⟩ :=
    joinRoom_spec (joinRoom s roomId sidA nameA tA).2 roomId sidB nameB tB
  have hg2 := getRoom_of_some _ _ _ hst1
  simp only [hg2] at hop2 hus2
  simp only [roomUsersMap, hst1] at h
  rw [mapSet_of_get_none _ _ _ h] at hus2
  constructor
  · rw [hop2, hop1]
  · rw [hus2, hus1]
    simp

/-- Witness for C6 amended: alice then bob join room r from the initial
state. -/
theorem C6_amended_full_sync_witness :
    (joinRoom (joinRoom initialState "r" "s1" "alice" 0).2 "r" "s2" "bob" 1).1.operations
        = (joinRoom initialState "r" "s1" "alice" 0).1.operations ∧
    (joinRoom (joinRoom initialState "r" "s1" "alice" 0).2 "r" "s2" "bob" 1).1.users
        = (joinRoom initialState "r" "s1" "alice" 0).1.users
          ++ [(addUserToRoom (joinRoom initialState "r" "s1" "alice" 0).2 "r" "s2" "bob" 1).1] :=
  C6_amended_full_sync initialState "r" "s1" "s2" "alice" "bob" 0 1 (by decide)

/-- C7: an undo request on a room with empty history broadcasts nothing
and leaves the history empty, and in general an operation_removed
broadcast is emitted iff undoOperation actually removed an operation. -/
theorem C7_undo_empty_no_broadcast (s : ServerState) (roomId : String) :
    ((getOperations s roomId).1 = [] →
      (undoHandler s roomId).1 = none ∧
      (getOperations (undoHandler s roomId).2 roomId).1 = []) ∧
    ((undoHandler s roomId).1.isSome ↔ (undoOperation s roomId).1.isSome) := by
  constructor
  · intro h
    have h : (getRoom s roomId).1.operations = [] := h
    have he : (getRoom s roomId).1.operations.isEmpty = true := by
      simp [List.isEmpty_iff, h]
    have hu : undoOperation s roomId = (none, (getRoom s roomId).2) := by
      unfold undoOperation
      simp [he]
    constructor
    · simp [undoHandler, hu]
    · have hg : getRoom (getRoom s roomId).2 roomId
          = ((getRoom s roomId).1, (getRoom s roomId).2) :=
        getRoom_of_some _ _ _ (getRoom_get s roomId)
      simp [undoHandler, hu, getOperations, hg, h]
  · unfold undoHandler
    cases hu : (undoOperation s roomId).1 <;> simp [hu]

/-- Witness for C7 at the initial state. -/
theorem C7_undo_empty_no_broadcast_witness :
    ((undoHandler initialState "w").1 = none ∧
      (getOperations (undoHandler initialState "w").2 "w").1 = []) ∧
    ((undoHandler initialState "w").1.isSome
      ↔ (undoOperation initialState "w").1.isSome) :=
  ⟨(C7_undo_empty_no_broadcast initialState "w").1 rfl,
   (C7_undo_empty_no_broadcast initialState "w").2⟩

theorem removeUserFromRoom_eq_none (s : ServerState) (roomId sid : String)
    (hm : mapGet s.rooms roomId = none) :
    removeUserFromRoom s roomId sid = (none, s) := by
  unfold removeUserFromRoom
  simp [hm]

theorem removeUserFromRoom_eq_del (s : ServerState) (roomId sid : String)
    (room : Room) (hm : mapGet s.rooms roomId = some room)
    (hl : (mapDel room.users sid).length = 0) :
    removeUserFromRoom s roomId sid
      = (mapGet room.users sid, { s with rooms := mapDel s.rooms roomId }) := by
  unfold removeUserFromRoom
  simp [hm, hl]

theorem removeUserFromRoom_eq_set (s : ServerState) (roomId sid : String)
    (room : Room) (hm : mapGet s.rooms roomId = some room)
    (hl : ¬ (mapDel room.users sid).length = 0) :
    removeUserFromRoom s roomId sid
      = (mapGet room.users sid,
         { s with rooms := mapSet s.rooms roomId (⟨mapDel room.users sid,
                             room.operations, mapDel room.cursors sid⟩ : Room) }) := by
  unfold removeUserFromRoom
  simp [hm, hl]

/-- C8: a disconnect never commits anything - every room that survives it
keeps its operation log unchanged (so no buffered in-progress points ever
reach any log), the id counter is untouched, the disconnecting socket is
only evicted from the presence maps of its room, and the room is torn
down when it was the last participant. -/
theorem C8_disconnect_preserves_log (s : ServerState) (roomId sid : String) :
    (disconnectHandler s roomId sid).opCounter = s.opCounter ∧
    (∀ r room₂, mapGet (disconnectHandler s roomId sid).rooms r = some room₂ →
      ∃ room₁, mapGet s.rooms r = some room₁ ∧
        room₂.operations = room₁.operations ∧
        (r = roomId → room₂.users = mapDel room₁.users sid ∧
                      room₂.cursors = mapDel room₁.cursors sid) ∧
        (r ≠ roomId → room₂ = room₁)) ∧
    (∀ room₁, mapGet s.rooms roomId = some room₁ →
      (mapDel room₁.users sid).length = 0 →
      mapGet (disconnectHandler s roomId sid).rooms roomId = none) := by
  refine ⟨removeUserFromRoom_opCounter s roomId sid, ?_, ?_⟩
  · intro r room₂ hr
    unfold disconnectHandler at hr
    cases hm : mapGet s.rooms roomId with
    | none =>
      rw [removeUserFromRoom_eq_none s roomId sid hm] at hr
      refine ⟨room₂, hr, rfl, ?_, fun _ => rfl⟩
      intro he
      subst he
      rw [hm] at hr
      cases hr
    | some room =>
      by_cases hl : (mapDel room.users sid).length = 0
      · rw [removeUserFromRoom_eq_del s roomId sid room hm hl] at hr
        by_cases hre : r = roomId
        · subst hre
          rw [mapGet_del_self] at hr
          cases hr
        · rw [mapGet_del_ne _ _ _ hre] at hr
          exact ⟨room₂, hr, rfl, fun he => absurd he hre, fun _ => rfl⟩
      · rw [removeUserFromRoom_eq_set s roomId sid room hm hl] at hr
        by_cases hre : r = roomId
        · subst hre
          rw [mapGet_set_self] at hr
          cases hr
          exact ⟨room, hm, rfl, fun _ => ⟨rfl, rfl⟩, fun hne => absurd rfl hne⟩
        · rw [mapGet_set_ne _ _ _ _ hre] at hr
          exact ⟨room₂, hr, rfl, fun he => absurd he hre, fun _ => rfl⟩
  · intro room₁ hm hl
    unfold disconnectHandler
    rw [removeUserFromRoom_eq_del s roomId sid room₁ hm hl]
    exact mapGet_del_self _ _

/-- The second participant of the witness scenarios (second palette
color, joined at 1). -/
def userB : User := ⟨"b", "bob", "#4ECDC4", 1⟩

/-- A state where alice and bob occupy room r. -/
def twoUserState : ServerState :=
  (joinRoom (joinRoom initialState "r" "a" "alice" 0).2 "r" "b" "bob" 1).2

/-- Witness for C8: alice disconnects from the two-user room r; bob's
room survives with its (empty) log intact. -/
theorem C8_disconnect_preserves_log_witness :
    (disconnectHandler twoUserState "r" "a").opCounter = twoUserState.opCounter ∧
    (∃ room₁, mapGet twoUserState.rooms "r" = some room₁ ∧
      (⟨[("b", userB)], [], []⟩ : Room).operations = room₁.operations ∧
      ("r" = "r" → (⟨[("b", userB)], [], []⟩ : Room).users = mapDel room₁.users "a" ∧
                   (⟨[("b", userB)], [], []⟩ : Room).cursors = mapDel room₁.cursors "a") ∧
      ("r" ≠ "r" → (⟨[("b", userB)], [], []⟩ : Room) = room₁)) :=
  ⟨(C8_disconnect_preserves_log twoUserState "r" "a").1,
   (C8_disconnect_preserves_log twoUserState "r" "a").2.1 "r"
     ⟨[("b", userB)], [], []⟩ (by decide)⟩

end Flam
